import Mathlib

/-!
A shallow embedding, in Lean, of the scope / handle engine of this ORM
repository: the `DB` handle (connection reference, latched error, settings,
query-condition accumulator), the `Scope` unit of work (field discovery and
its caches, primary-key resolution, table naming, hook dispatch, the
transaction controller) and the `Field.Set` operation.

Modelling conventions, stated once here:
* Go pointer state is passed explicitly: an operation that mutates its
  receiver returns the updated value.  `Scope.db` is the single shared `*DB`
  of the scope, so mutations through it are mutations of the scope's `db`
  field.  The parent session (`db.parent`) is modelled by the fields it
  contributes (`parentDb`, `singularTable`, `tagIdentifier`) and is assumed
  to be a distinct object from the handle itself.
* Go reflection is modelled by a small type universe `GoTy` covering the
  kinds the engine distinguishes (primitive, `time.Time`, `sql.Scanner`
  implementors, struct, slice).  Record values are taken at their zero
  values, hence every discovered field has `IsBlank = true`.
* Struct tags arrive pre-parsed: a field declaration carries the parsed
  `gorm` tag settings, the parsed `sql` tag settings and the raw tag map
  (the ignore check reads the raw tag under the configured tag identifier).
* Logging (`go s.print`, `s.log`) has no modelled state and is elided.
* Map iteration order of Go is not representable; the column-name map is an
  association list in insertion order, so "first" below means first in
  insertion (declared-field) order.
-/

namespace GormSpec

/-- Character-list prefix test.  The source's anchored regular expression
match on a literal (no meta-characters beyond `^`) reduces to this. -/
def listStartsWith : List Char → List Char → Bool
  | [], _ => true
  | _ :: _, [] => false
  | a :: as, b :: bs => (a == b) && listStartsWith as bs

/-- Go `error` values.  `errors.New` values are `mk msg`; the package level
sentinel `RecordNotFound` (defined outside the given sources, compared by
identity in `DB.err`) is a distinguished constructor. -/
inductive GoErr where
  | recordNotFound
  | mk (msg : String)
deriving DecidableEq

/-- `err.Error()`. -/
def GoErr.message : GoErr → String
  | .recordNotFound => ("record not found")
  | .mk m => m

/-- The benign driver scan-mismatch pattern of `DB.err`:
`regexp.MustCompile("^sql: Scan error on column index")`. -/
def scanErrorPattern : List Char := ("sql: Scan error on column index").data

/-- `MatchString` of the anchored pattern above. -/
def matchesScanError (m : String) : Bool := listStartsWith scanErrorPattern m.data

/-- The query-condition accumulator (`search`).  Only what the given sources
consult is modelled: the explicit table-name override and an opaque list of
accumulated conditions; the `db` back-pointer is dropped. -/
structure search where
  tableName : String
  conds : List String
deriving DecidableEq

/-- `&search{}`. -/
def emptySearch : search := { tableName := (""), conds := [] }

/-- The connection reference held by a handle (`DB.db : sqlCommon`).  A
plain connection may implement `sqlDb`; `supportsBegin` records whether the
`sqlDb` type assertion succeeds and `beginResult` what its `Begin()` call
returns (`some n`: a transaction handle, `none`: an error, swallowed by
`Scope.Begin`).  A transaction handle implements `sqlTx` and not `sqlDb`. -/
inductive SqlConn where
  | conn (supportsBegin : Bool) (beginResult : Option Nat)
  | tx (n : Nat)
deriving DecidableEq

/-- The `DB` handle.  `parentDb`, `singularTable` and `tagIdentifier` are
the consulted fields of `s.parent`; `values` is the settings map (only
boolean values are ever stored by the given sources). -/
structure DB where
  db : SqlConn
  parentDb : SqlConn
  singularTable : Bool
  tagIdentifier : String
  logMode : Nat
  Error : Option GoErr
  values : List (String × Bool)
  search : Option search
deriving DecidableEq

/-- Settings-map lookup (Go map read, presence included). -/
def lookupVal : List (String × Bool) → String → Option Bool
  | [], _ => none
  | (k, v) :: rest, key => if k = key then some v else lookupVal rest key

/-- Settings-map store (Go map assignment: replace or append). -/
def setVal : List (String × Bool) → String → Bool → List (String × Bool)
  | [], key, v => [(key, v)]
  | (k, w) :: rest, key, v =>
      if k = key then (k, v) :: rest else (k, w) :: setVal rest key v

/-- `DB.clone`: duplicates the handle; the settings map is copied (value
semantics make the copy implicit) and the condition accumulator is
deep-copied, a fresh empty one being installed when the receiver's is nil. -/
def DB.clone (s : DB) : DB :=
  { s with search := some (match s.search with | none => emptySearch | some x => x) }

/-- `DB.new`: sets the receiver's `search` to nil, then clones.  Returns
(the mutated receiver, the derived handle). -/
def DB.new (s : DB) : DB × DB :=
  let s' := { s with search := none }
  (s', DB.clone s')

/-- `DB.err`: the error-latching operation.  A nil error is handled by the
callers (`Scope.Err`); here the argument is non-nil.  `RecordNotFound` skips
logging and suppression and is stored.  Any other error is logged (elided),
then: if its message matches the scan-mismatch pattern the function returns
nil without storing; otherwise it is stored in `Error` (overwriting any
previous value) and returned. -/
def DB.err (s : DB) (err : GoErr) : Option GoErr × DB :=
  if err = GoErr.recordNotFound then
    (some err, { s with Error := some err })
  else if matchesScanError err.message then
    (none, s)
  else
    (some err, { s with Error := some err })

/-- Modelled from the spec: the excluded case-conversion collaborator
`ToSnake` ("string case-conversion utilities (snake/camel casing)" are
consumed as black-box contracts).  Camel case to snake case: an interior
upper-case letter is preceded by an underscore and lowered. -/
def toSnakeAux : Bool → List Char → List Char
  | _, [] => []
  | first, c :: cs =>
      if c.isUpper then
        (if first then [c.toLower] else ['_', c.toLower]) ++ toSnakeAux false cs
      else c :: toSnakeAux false cs

/-- Modelled from the spec: `ToSnake` on strings. -/
def toSnake (s : String) : String := String.mk (toSnakeAux true s.data)

/-- Modelled from the spec: the excluded case-conversion collaborator
`SnakeToUpperCamel`: underscores are dropped and the letter after each
(and the first letter) is upper-cased. -/
def snakeToUpperCamelAux : Bool → List Char → List Char
  | _, [] => []
  | cap, c :: cs =>
      if c = '_' then snakeToUpperCamelAux true cs
      else (if cap then c.toUpper else c) :: snakeToUpperCamelAux false cs

/-- Modelled from the spec: `SnakeToUpperCamel` on strings. -/
def snakeToUpperCamel (s : String) : String := String.mk (snakeToUpperCamelAux true s.data)

/-- `ast.IsExported`: the first character is upper case. -/
def isExported (s : String) : Bool :=
  match s.data with
  | [] => false
  | c :: _ => c.isUpper

mutual
/-- The modelled universe of Go types, covering the kinds the engine
distinguishes.  `timeT` is `time.Time` and `scannerT` a struct type whose
pointer implements `sql.Scanner`; both have reflect kind Struct and no
exported fields.  `structT` carries the result of a value-receiver
`TableName() string` method when the type declares one.  Pointer fields are
outside the model (no claim exercises them). -/
inductive GoTy where
  | prim (name : String)
  | timeT
  | scannerT (name : String)
  | structT (name : String) (tableNameMethod : Option String) (fields : List GoStructField)
  | sliceT (elem : GoTy)

/-- One declared struct field, tags pre-parsed: `gormSettings` is
`parseTagSetting(Tag.Get("gorm"))`, `sqlSettings` is
`parseTagSetting(Tag.Get("sql"))` and `rawTags` the raw tag map consulted by
`Tag.Get(tagIdentifier)`. -/
inductive GoStructField where
  | mk (name : String) (anonymous : Bool)
       (gormSettings : List (String × String))
       (sqlSettings : List (String × String))
       (rawTags : List (String × String))
       (typ : GoTy)
end

def GoStructField.name : GoStructField → String
  | .mk n _ _ _ _ _ => n

def GoStructField.anonymous : GoStructField → Bool
  | .mk _ a _ _ _ _ => a

def GoStructField.gormSettings : GoStructField → List (String × String)
  | .mk _ _ g _ _ _ => g

def GoStructField.sqlSettings : GoStructField → List (String × String)
  | .mk _ _ _ s _ _ => s

def GoStructField.rawTags : GoStructField → List (String × String)
  | .mk _ _ _ _ r _ => r

def GoStructField.typ : GoStructField → GoTy
  | .mk _ _ _ _ _ t => t

/-- The reflect kinds the engine branches on. -/
inductive GoKind where
  | structK
  | sliceK
  | otherK
deriving DecidableEq

/-- `reflect.Value.Kind()` of a (zero) value of the type. -/
def GoTy.kind : GoTy → GoKind
  | .prim _ => .otherK
  | .timeT => .structK
  | .scannerT _ => .structK
  | .structT _ _ _ => .structK
  | .sliceT _ => .sliceK

/-- Boolean form of the Struct-kind test. -/
def GoTy.isStructKind (t : GoTy) : Bool :=
  match t with
  | .timeT => true
  | .scannerT _ => true
  | .structT _ _ _ => true
  | _ => false

/-- `Type.Name()`. -/
def GoTy.name : GoTy → String
  | .prim n => n
  | .timeT => ("Time")
  | .scannerT n => n
  | .structT n _ _ => n
  | .sliceT _ => ("")

/-- Result of the value-receiver `TableName()` method, when declared. -/
def GoTy.tableNameMethod : GoTy → Option String
  | .structT _ tn _ => tn
  | _ => none

/-- Declared struct fields (`time.Time` and scanner types expose only
unexported fields, hence none here). -/
def GoTy.structFields : GoTy → List GoStructField
  | .structT _ _ fs => fs
  | _ => []

/-- `reflect.New(t).Elem().FieldByName(nm).IsValid()`: the type declares a
field of that (Go attribute) name. -/
def GoTy.hasFieldNamed (t : GoTy) (nm : String) : Bool :=
  (t.structFields).any (fun f => f.name == nm)

/-- `Field.IsScanner()`: a pointer to the type implements `sql.Scanner`. -/
def GoTy.isScannerTy (t : GoTy) : Bool :=
  match t with
  | .scannerT _ => true
  | _ => false

/-- The association descriptor (`relationship`). -/
structure relationship where
  JoinTable : String
  ForeignKey : String
  ForeignType : String
  AssociationForeignKey : String
  Kind : String
deriving DecidableEq

/-- Shallow view of the `reflect.Value` stored in `Field.Field`: validity,
addressability, whether its address implements `sql.Scanner`, and the held
datum (abstracted to an integer; the zero value is `0`). -/
structure FVal where
  valid : Bool
  canAddr : Bool
  isScanner : Bool
  data : Int
deriving DecidableEq

/-- Field metadata (`Field`).  `Fval` models the Go field `Field.Field`
(the reflected value); the `Tag` field is carried by `GoStructField` and
not duplicated here. -/
structure Field where
  Name : String
  DBName : String
  Fval : FVal
  IsNormal : Bool
  IsBlank : Bool
  IsIgnored : Bool
  IsPrimaryKey : Bool
  DefaultValue : Option String
  Relationship : Option relationship
deriving DecidableEq

/-- Parsed-tag / string-map lookup. -/
def lookupStr : List (String × String) → String → Option String
  | [], _ => none
  | (k, v) :: rest, key => if k = key then some v else lookupStr rest key

/-- The column-name-to-field mapping, as an insertion-ordered association
list (Go's map iteration order is not representable; see the header). -/
abbrev FieldsMap := List (String × Field)

def lookupField : FieldsMap → String → Option Field
  | [], _ => none
  | (k, v) :: rest, key => if k = key then some v else lookupField rest key

/-- Go map assignment at an existing key: in-place replacement. -/
def replaceField : FieldsMap → String → Field → FieldsMap
  | [], _, _ => []
  | (k, v) :: rest, key, f =>
      if k = key then (key, f) :: rest else (k, v) :: replaceField rest key f

/-- The no-explicit-primary-key fallback of `Scope.Fields`: the field at
column `id`, if any, is promoted to primary key. -/
def promoteIdField (m : FieldsMap) : FieldsMap :=
  match lookupField m ("id") with
  | some f => replaceField m ("id") { f with IsPrimaryKey := true }
  | none => m

/-- Insertion of the fields produced for one struct attribute, with the
duplicate-column handling of `Scope.Fields`: an existing ignored entry is
replaced, an existing non-ignored entry is a panic (modelled as `.error`);
the primary-key presence flag is threaded.  `tyName` feeds the panic
message (`scope.typeName()`). -/
def insertFields (tyName : String) : List Field → FieldsMap → Bool → Except String (FieldsMap × Bool)
  | [], m, hp => .ok (m, hp)
  | f :: fs, m, hp =>
      let hp' := hp || f.IsPrimaryKey
      match lookupField m f.DBName with
      | some old =>
          if old.IsIgnored then insertFields tyName fs (replaceField m f.DBName f) hp'
          else .error (("Duplicated column name for ") ++ tyName)
      | none => insertFields tyName fs (m ++ [(f.DBName, f)]) hp'

mutual
/-- The computation body of `Scope.Fields` (the caching wrapper is
`Scope.Fields` below): iterate the exported declared attributes of the
indirect value's type (an invalid value — nil target — or a non-struct kind
yields the empty mapping), classify each through `fieldFromStruct`, insert
with duplicate handling, then apply the `id`-promotion fallback when no
field was flagged primary key.  The `fuel` argument only bounds the
recursion depth of the translation (the source recurses unguarded and can
diverge on cyclic types, which tree-shaped `GoTy` values cannot express);
it is chosen large enough by the callers below.  `tagId` is the handle's
`tagIdentifier`. -/
def fieldsCompute : Nat → Option GoTy → Bool → String → Except String FieldsMap
  | 0, _, _, _ => .error ("recursion limit")
  | _ + 1, none, _, _ => .ok []
  | n + 1, some typ, withRelation, tagId =>
      if typ.isStructKind then
        match fieldsIter n typ typ.structFields withRelation tagId [] false with
        | .error e => .error e
        | .ok (m, hasPK) => .ok (if hasPK then m else promoteIdField m)
      else .ok []

/-- The field loop of `Scope.Fields`: unexported attributes are skipped. -/
def fieldsIter : Nat → GoTy → List GoStructField → Bool → String → FieldsMap → Bool → Except String (FieldsMap × Bool)
  | _, _, [], _, _, m, hp => .ok (m, hp)
  | 0, _, _ :: _, _, _, _, _ => .error ("recursion limit")
  | n + 1, typ, f :: fs, withRelation, tagId, m, hp =>
      if isExported f.name then
        match fieldFromStruct n typ f withRelation tagId with
        | .error e => .error e
        | .ok newFields =>
            match insertFields typ.name newFields m hp with
            | .error e => .error e
            | .ok (m', hp') => fieldsIter n typ fs withRelation tagId m' hp'
      else fieldsIter n typ fs withRelation tagId m hp

/-- `Scope.fieldFromStruct`, for one declared attribute `f` of the struct
type `ownerTy`: tag extraction (primary-key flag, column override, sql
default, ignore check under `tagId`), then — for non-ignored fields —
association classification by the reflect kind of the field value:
slices of struct kind become has_many / many_to_many relations (with the
foreign key cleared when absent from the element type and no join table is
given), `time.Time` and scanner structs are normal, embedded/anonymous
structs contribute their own recursively discovered fields, other structs
become belongs_to or has_one by the owner-column existence check, and
everything else is a normal column.  Values are taken at their zero value,
so `IsBlank` is `true`. -/
def fieldFromStruct : Nat → GoTy → GoStructField → Bool → String → Except String (List Field)
  | 0, _, _, _, _ => .error ("recursion limit")
  | n + 1, ownerTy, f, withRelation, tagId =>
      let settings := f.gormSettings
      let isPK := (lookupStr settings ("PRIMARY_KEY")).isSome
      let dbName :=
        match lookupStr settings ("COLUMN") with
        | some v => v
        | none => toSnake f.name
      let defVal := lookupStr f.sqlSettings ("DEFAULT")
      let isIgn :=
        match lookupStr f.rawTags tagId with
        | some t => t = ("-")
        | none => false
      let base : Field :=
        { Name := f.name, DBName := dbName,
          Fval := { valid := true, canAddr := true,
                    isScanner := f.typ.isScannerTy, data := 0 },
          IsNormal := false, IsBlank := true, IsIgnored := isIgn,
          IsPrimaryKey := isPK, DefaultValue := defVal, Relationship := none }
      if isIgn then .ok [base]
      else
        let fk0 := snakeToUpperCamel ((lookupStr settings ("FOREIGNKEY")).getD (""))
        let ft0 := snakeToUpperCamel ((lookupStr settings ("FOREIGNTYPE")).getD (""))
        let afk0 := snakeToUpperCamel ((lookupStr settings ("ASSOCIATIONFOREIGNKEY")).getD (""))
        let m2m := (lookupStr settings ("MANY2MANY")).getD ("")
        let poly := snakeToUpperCamel ((lookupStr settings ("POLYMORPHIC")).getD (""))
        let fk := if poly ≠ ("") then poly ++ ("Id") else fk0
        let ft := if poly ≠ ("") then poly ++ ("Type") else ft0
        match f.typ with
        | GoTy.sliceT elem =>
            if elem.isStructKind && withRelation then
              let fk1 := if fk = ("") then ownerTy.name ++ ("Id") else fk
              let afk := if afk0 = ("") then elem.name ++ ("Id") else afk0
              let fk2 :=
                if m2m = ("") then (if elem.hasFieldNamed fk1 then fk1 else (""))
                else fk1
              let kindStr := if m2m = ("") then ("has_many") else ("many_to_many")
              let rel : relationship :=
                { JoinTable := m2m, ForeignKey := fk2, ForeignType := ft,
                  AssociationForeignKey := afk, Kind := kindStr }
              .ok [{ base with Relationship := some rel }]
            else .ok [{ base with IsNormal := true }]
        | GoTy.timeT => .ok [{ base with IsNormal := true }]
        | GoTy.scannerT _ => .ok [{ base with IsNormal := true }]
        | GoTy.structT _ _ _ =>
            if (lookupStr settings ("EMBEDDED")).isSome || f.anonymous then
              match fieldsCompute n (some f.typ) true tagId with
              | .error e => .error e
              | .ok m => .ok (m.map Prod.snd)
            else if withRelation then
              let belongsKey := if fk = ("") then f.name ++ ("Id") else fk
              let hasOneKey := if fk = ("") then ownerTy.name ++ ("Id") else fk
              match hasColumn n ownerTy tagId belongsKey with
              | .error e => .error e
              | .ok b =>
                  let fk' := if b then belongsKey else hasOneKey
                  let kindStr := if b then ("belongs_to") else ("has_one")
                  let rel : relationship :=
                    { JoinTable := (""), ForeignKey := fk', ForeignType := ft,
                      AssociationForeignKey := (""), Kind := kindStr }
                  .ok [{ base with Relationship := some rel }]
            else .ok [base]
        | GoTy.prim _ => .ok [{ base with IsNormal := true }]

/-- `Scope.HasColumn` as used during association resolution: relation-free
discovery (for slice scopes, against a fresh element value) followed by a
snake-cased column lookup. -/
def hasColumn : Nat → GoTy → String → String → Except String Bool
  | 0, _, _, _ => .error ("recursion limit")
  | n + 1, scopeTy, tagId, column =>
      let ty := match scopeTy with | GoTy.sliceT e => e | t => t
      match fieldsCompute n (some ty) false tagId with
      | .error e => .error e
      | .ok m => .ok ((lookupField m (toSnake column)).isSome)
end

/-- The six recognized hook-method shapes of `Scope.CallMethod`, plus
`absent` (no method of the dispatched name) and `unsupported` (a method of
the name whose signature matches none of the six cases). -/
inductive HookShape where
  | absent
  | noArg
  | scopeArg
  | dbArg
  | noArgE
  | scopeArgE
  | dbArgE
  | unsupported
deriving DecidableEq

/-- The method a target value exposes under the dispatched hook name:
its shape, and — for the error-returning shapes — the error the hook body
returns on this value. -/
structure HookM where
  shape : HookShape
  result : Option GoErr
deriving DecidableEq

/-- A hook method that is not present (used for freshly built zero
elements). -/
def noHook : HookM := { shape := HookShape.absent, result := none }

/-- The scope's target value: a single addressable record, or a slice whose
elements each expose a hook method (the per-element `result` lets hook
bodies fail element-wise).  A nil target is `Option.none` at the scope
level. -/
inductive TargetV where
  | scalar (ty : GoTy) (hook : HookM)
  | coll (elemTy : GoTy) (hooks : List HookM)

/-- The type of the indirect value of the target. -/
def TargetV.ty : TargetV → GoTy
  | .scalar t _ => t
  | .coll t _ => GoTy.sliceT t

/-- The `Scope`: target, the two caches, the shared `*DB`, the per-instance
identifier (derived in the source from the scope's address on first use;
abstracted here as a string fixed at creation) and the `Search` reference
captured from the handle at creation (a pointer to the same `search` object;
`DB.new` only reassigns the handle's pointer, so the captured reference is a
separate field). -/
structure Scope where
  Value : Option TargetV
  fields : Option FieldsMap
  primaryKeyField : Option Field
  db : DB
  instanceId : String
  Search : Option search

/-- `reflect.Indirect(reflect.ValueOf(scope.Value))`'s type (`none` for a
nil target, whose reflected value is invalid). -/
def Scope.indirectTy (s : Scope) : Option GoTy := s.Value.map TargetV.ty

mutual
/-- Structural size of a type tree (for the fuel bound below). -/
def GoTy.size : GoTy → Nat
  | .prim _ => 1
  | .timeT => 1
  | .scannerT _ => 1
  | .structT _ _ fs => 1 + goFieldsSize fs
  | .sliceT e => 1 + e.size

/-- Structural size of a field-declaration list. -/
def goFieldsSize : List GoStructField → Nat
  | [] => 0
  | (GoStructField.mk _ _ _ _ _ t) :: fs => 1 + GoTy.size t + goFieldsSize fs
end

/-- Fuel amply covering the recursion depth of `fieldsCompute` on a tree
type (each structural level consumes at most four units). -/
def scopeFuel : Option GoTy → Nat
  | none => 4
  | some t => 4 * t.size + 4

/-- `Scope.Fields`: the caching wrapper.  `withRelation` is
`len(noRelations) == 0` of the variadic source signature.  With relations:
the memoized mapping is returned when present, otherwise the computed
mapping is stored in the cache and returned.  Without relations: recompute,
touching neither reading nor writing the cache. -/
def Scope.Fields (s : Scope) (withRelation : Bool) : Except String (FieldsMap × Scope) :=
  if withRelation then
    match s.fields with
    | some m => .ok (m, s)
    | none =>
        match fieldsCompute (scopeFuel s.indirectTy) s.indirectTy true s.db.tagIdentifier with
        | .error e => .error e
        | .ok m => .ok (m, { s with fields := some m })
  else
    match fieldsCompute (scopeFuel s.indirectTy) s.indirectTy false s.db.tagIdentifier with
    | .error e => .error e
    | .ok m => .ok (m, s)

/-- `Scope.New`: a fresh scope on the same handle with an empty `search`
and empty caches. -/
def Scope.New (s : Scope) (v : Option TargetV) : Scope :=
  { Value := v, fields := none, primaryKeyField := none,
    db := s.db, instanceId := (""), Search := some emptySearch }

/-- The primary-key selection loop of `Scope.PrimaryKeyField`: the first
field flagged primary key in iteration order. -/
def findPrimaryKey (m : FieldsMap) : Option Field :=
  (m.find? (fun p => p.2.IsPrimaryKey)).map Prod.snd

/-- `Scope.PrimaryKeyField`: returns the cached field when present;
otherwise runs `Fields()` (with relations) — on a fresh scope around a
zero-valued element when the target is a slice, on the scope itself
otherwise (so the scope's own fields cache is populated in that case) —
selects the first flagged field and stores it in the scope's cache. -/
def Scope.PrimaryKeyField (s : Scope) : Except String (Option Field × Scope) :=
  match s.primaryKeyField with
  | some f => .ok (some f, s)
  | none =>
      match s.indirectTy with
      | some (GoTy.sliceT elem) =>
          match (s.New (some (TargetV.scalar elem noHook))).Fields true with
          | .error e => .error e
          | .ok (m, _) =>
              let pk := findPrimaryKey m
              .ok (pk, { s with primaryKeyField := pk })
      | _ =>
          match s.Fields true with
          | .error e => .error e
          | .ok (m, s') =>
              let pk := findPrimaryKey m
              .ok (pk, { s' with primaryKeyField := pk })

/-- `Scope.Err`: a non-nil error is handed to `DB.err`; the original error
(not `DB.err`'s return) is handed back to the caller. -/
def Scope.Err (s : Scope) (e : Option GoErr) : Option GoErr × Scope :=
  match e with
  | none => (none, s)
  | some er => (some er, { s with db := (DB.err s.db er).2 })

/-- `Scope.HasError`: `scope.db.Error != nil`. -/
def Scope.HasError (s : Scope) : Bool := s.db.Error.isSome

/-- Suffix test on strings (an end-anchored literal regular expression
match reduces to this). -/
def strEndsWith (s t : String) : Bool := List.isSuffixOf t.data s.data

/-- Drop the last `n` characters. -/
def strDropRight (s : String) (n : Nat) : String :=
  String.mk (s.data.take (s.data.length - n))

/-- The pluralization loop of `Scope.TableName` over `pluralMapKeys` /
`pluralMapValues`: the first matching rule is applied, in order
`ch$→ches`, `ss$→sses`, `sh$→shes`, `day$→days`, `y$→ies`, `x$→xes`,
`([^s])s?$→${1}s`; with no match the string is returned unchanged.  The
last rule appends `s` when the string does not already end in `s` and
leaves a string ending in a (single, by the earlier `ss$` rule) `s`
unchanged — which is also the unchanged-result of a failed match on `""`
or `"s"`. -/
def pluralizeTableName (str : String) : String :=
  if strEndsWith str ("ch") then strDropRight str 2 ++ ("ches")
  else if strEndsWith str ("ss") then strDropRight str 2 ++ ("sses")
  else if strEndsWith str ("sh") then strDropRight str 2 ++ ("shes")
  else if strEndsWith str ("day") then strDropRight str 3 ++ ("days")
  else if strEndsWith str ("y") then strDropRight str 1 ++ ("ies")
  else if strEndsWith str ("x") then strDropRight str 1 ++ ("xes")
  else if strEndsWith str ("s") then str
  else if str = ("") then str
  else str ++ ("s")

/-- The non-override body of `Scope.TableName`: a nil target latches
`can't get table name` and yields `""`; a slice target is replaced by a
zero element; a declared `TableName()` method wins; otherwise the
snake-cased type name, pluralized unless singular-table naming is
configured. -/
def tableNameBody (s : Scope) : String × Scope :=
  match s.Value with
  | none => ((""), (Scope.Err s (some (GoErr.mk ("can't get table name")))).2)
  | some tv =>
      let data := match tv.ty with | GoTy.sliceT e => e | t => t
      match data.tableNameMethod with
      | some tn => (tn, s)
      | none =>
          let str := toSnake data.name
          if s.db.singularTable then (str, s)
          else (pluralizeTableName str, s)

/-- `Scope.TableName`: an explicit override on the scope's `Search` (a
non-empty `TableName`) takes precedence. -/
def Scope.TableName (s : Scope) : String × Scope :=
  match s.Search with
  | some se => if se.tableName.length > 0 then (se.tableName, s) else tableNameBody s
  | none => tableNameBody s

/-- Observable record of one hook invocation: which shape ran, and — for
the fresh-handle shapes — the handle value passed to the hook body. -/
inductive CallEvent where
  | ran (shape : HookShape)
  | ranWithDB (shape : HookShape) (fresh : DB)
deriving DecidableEq

/-- The per-value `call` closure of `Scope.CallMethod`: dispatch on the
method's signature shape.  The fresh-handle shapes evaluate
`scope.db.new()` — mutating the scope's handle (its `search` is set to
nil) and passing the derived clone to the hook.  Error-returning shapes
feed the hook's result to `Scope.Err`.  An existing method of an
unrecognized shape latches the `unsupported function` error.  Hook-body
effects other than the returned error are not modelled. -/
def callOne (name : String) (s : Scope) (h : HookM) : Scope × List CallEvent :=
  match h.shape with
  | .absent => (s, [])
  | .noArg => (s, [CallEvent.ran HookShape.noArg])
  | .scopeArg => (s, [CallEvent.ran HookShape.scopeArg])
  | .dbArg =>
      let p := DB.new s.db
      ({ s with db := p.1 }, [CallEvent.ranWithDB HookShape.dbArg p.2])
  | .noArgE => ((Scope.Err s h.result).2, [CallEvent.ran HookShape.noArgE])
  | .scopeArgE => ((Scope.Err s h.result).2, [CallEvent.ran HookShape.scopeArgE])
  | .dbArgE =>
      let p := DB.new s.db
      let s1 := { s with db := p.1 }
      ((Scope.Err s1 h.result).2, [CallEvent.ranWithDB HookShape.dbArgE p.2])
  | .unsupported =>
      ((Scope.Err s (some (GoErr.mk (("unsupported function ") ++ name)))).2,
       [CallEvent.ran HookShape.unsupported])

/-- `Scope.CallMethod`: a nil target is a no-op; a slice target applies the
closure to every addressable element in sequence order; a scalar target
applies it once.  The returned list records the invocations in order. -/
def Scope.CallMethod (name : String) (s : Scope) : Scope × List CallEvent :=
  match s.Value with
  | none => (s, [])
  | some (TargetV.scalar _ h) => callOne name s h
  | some (TargetV.coll _ hs) =>
      hs.foldl (fun acc h =>
        let r := callOne name acc.1 h
        (r.1, acc.2 ++ r.2)) (s, [])

/-- Modelled from the spec: the settings-map store `DB.InstantSet` (defined
outside the given sources; the Handle "carries ... a mapping of named
settings"). -/
def DB.instantSet (d : DB) (k : String) (v : Bool) : DB :=
  { d with values := setVal d.values k v }

/-- The settings key of the instance-scoped started-transaction marker:
`"gorm:started_transaction" + scope.InstanceId()`. -/
def markerKey (s : Scope) : String := ("gorm:started_transaction") ++ s.instanceId

/-- `Scope.Begin`: when the connection implements `sqlDb` and its `Begin()`
succeeds, the handle's connection is swapped to the new transaction handle
and the instance-scoped marker is set; a failed type assertion or a begin
error leaves the scope untouched. -/
def Scope.Begin (s : Scope) : Scope :=
  match s.db.db with
  | SqlConn.conn true (some n) =>
      let db1 := { s.db with db := SqlConn.tx n }
      { s with db := DB.instantSet db1 (markerKey s) true }
  | _ => s

/-- The commit / rollback action performed on a transaction handle (the
returned driver errors are ignored by the source). -/
inductive TxAction where
  | commit (n : Nat)
  | rollback (n : Nat)
deriving DecidableEq

/-- `Scope.CommitOrRollback`: only acts when this scope's marker is
present; then, when the connection implements `sqlTx`, rolls back if the
handle's error is set and commits otherwise, and in either case restores
the handle's connection reference to the parent session's. -/
def Scope.CommitOrRollback (s : Scope) : Scope × Option TxAction :=
  match lookupVal s.db.values (markerKey s) with
  | some _ =>
      match s.db.db with
      | SqlConn.tx n =>
          let act := match s.db.Error with
                     | some _ => TxAction.rollback n
                     | none => TxAction.commit n
          ({ s with db := { s.db with db := s.db.parentDb } }, some act)
      | _ => (s, none)
  | none => (s, none)

/-- Modelled from the spec: the excluded `isBlank` collaborator ("`isBlank`
reflects whether the current value equals the zero value of its type"),
on the abstracted datum. -/
def isBlankVal (v : Int) : Bool := v == 0

/-- The caller-side description of one `Field.Set` call: the datum to set,
whether `reflect.TypeOf(value).ConvertibleTo(field.Field.Type())` holds,
what the scanner's `Scan` returns for this value and what it stores. -/
structure SetArg where
  raw : Int
  convertible : Bool
  scanResult : Option GoErr
  scanStores : Int

/-- `Field.Set`: invalid and non-addressable fields error out; a field
whose address implements `sql.Scanner` is set through `scanner.Scan(value)`
whose returned error is discarded (`scanResult` is not consulted);
otherwise a convertible value is converted and stored, and anything else is
a conversion error.  On the success paths `IsBlank` is recomputed. -/
def Field.Set (f : Field) (a : SetArg) : Option GoErr × Field :=
  if f.Fval.valid = false then (some (GoErr.mk ("field value not valid")), f)
  else if f.Fval.canAddr = false then (some (GoErr.mk ("field value not addressable")), f)
  else if f.Fval.isScanner then
    let f1 := { f with Fval := { f.Fval with data := a.scanStores } }
    (none, { f1 with IsBlank := isBlankVal f1.Fval.data })
  else if a.convertible then
    let f1 := { f with Fval := { f.Fval with data := a.raw } }
    (none, { f1 with IsBlank := isBlankVal f1.Fval.data })
  else (some (GoErr.mk ("could not convert argument")), f)

/-- The primary-key computation as the specification words it ("requesting
relation-free field discovery (for collection targets, against a zero-valued
element)"): identical to `Scope.PrimaryKeyField` except that discovery runs
without relation inference — and hence, by the specification's own
description of relation-free discovery, without touching the scope's fields
cache.  Kept for comparison against the source translation. -/
def specPrimaryKeyField (s : Scope) : Except String (Option Field × Scope) :=
  match s.primaryKeyField with
  | some f => .ok (some f, s)
  | none =>
      let dTy := match s.indirectTy with
                 | some (GoTy.sliceT e) => some e
                 | t => t
      match fieldsCompute (scopeFuel dTy) dTy false s.db.tagIdentifier with
      | .error e => .error e
      | .ok m =>
          let pk := findPrimaryKey m
          .ok (pk, { s with primaryKeyField := pk })

/-- The pluralization procedure as the specification words it: the six
suffix rules, "else append `s`".  Kept for comparison against the source
translation `pluralizeTableName`. -/
def specPluralize (str : String) : String :=
  if strEndsWith str ("ch") then strDropRight str 2 ++ ("ches")
  else if strEndsWith str ("ss") then strDropRight str 2 ++ ("sses")
  else if strEndsWith str ("sh") then strDropRight str 2 ++ ("shes")
  else if strEndsWith str ("day") then strDropRight str 3 ++ ("days")
  else if strEndsWith str ("y") then strDropRight str 1 ++ ("ies")
  else if strEndsWith str ("x") then strDropRight str 1 ++ ("xes")
  else str ++ ("s")

/-- A plain session handle used by the concrete examples below. -/
def db0 : DB :=
  { db := SqlConn.conn true (some 7), parentDb := SqlConn.conn false none,
    singularTable := false, tagIdentifier := ("sql"), logMode := 0,
    Error := none, values := [], search := some emptySearch }

/-- A record type whose `Author` attribute is a struct-valued field tagged
primary key — legal for the engine, and the classification of `Author`
depends on whether discovery runs with relation inference. -/
def tyUser : GoTy :=
  GoTy.structT ("User") none
    [GoStructField.mk ("Name") false [] [] [] (GoTy.prim ("string"))]

def tyPost : GoTy :=
  GoTy.structT ("Post") none
    [GoStructField.mk ("Author") false [(("PRIMARY_KEY"), (""))] [] [] tyUser]

/-- A scope over a fresh `Post` record, caches empty. -/
def postScope : Scope :=
  { Value := some (TargetV.scalar tyPost noHook), fields := none,
    primaryKeyField := none, db := db0, instanceId := ("i0"),
    Search := some emptySearch }

/-- Projection used to compare the two primary-key computations: the
association descriptor of the returned primary-key field. -/
def pkRelationOf (r : Except String (Option Field × Scope)) : Option (Option relationship) :=
  match r with
  | .ok (some f, _) => some f.Relationship
  | _ => none

/-- Projection: was the scope's fields cache populated by the call? -/
def pkCacheWritten (r : Except String (Option Field × Scope)) : Bool :=
  match r with
  | .ok (_, s') => s'.fields.isSome
  | .error _ => false

theorem lookupVal_setVal (l : List (String × Bool)) (k : String) (v : Bool) :
    lookupVal (setVal l k v) k = some v := by
  induction l with
  | nil => simp [setVal, lookupVal]
  | cons p rest ih =>
      obtain ⟨k', v'⟩ := p
      by_cases h : k' = k
      · simp [setVal, lookupVal, h]
      · simp [setVal, lookupVal, h, ih]

/-- C2 counterexample: with `first` already latched, a later call of the
latching operation with the distinct non-nil error `second` leaves `second`,
not `first`, in the handle's error state — the first non-nil error does not
win. -/
theorem errOverwrite_counterexample :
    (DB.err { db0 with Error := some (GoErr.mk ("first")) } (GoErr.mk ("second"))).2.Error
        = some (GoErr.mk ("second"))
    ∧ ¬ ((DB.err { db0 with Error := some (GoErr.mk ("first")) } (GoErr.mk ("second"))).2.Error
        = some (GoErr.mk ("first"))) := by
  decide

/-- C2 (amended): the latching operation stores every non-nil error that is
not suppressed by the scan-mismatch pattern — including the record-not-found
sentinel — overwriting any previously latched error (last such error wins),
and returns it. -/
theorem errOverwrite_amended (d : DB) (e : GoErr)
    (h : e = GoErr.recordNotFound ∨ matchesScanError e.message = false) :
    (DB.err d e).2.Error = some e ∧ (DB.err d e).1 = some e := by
  rcases h with h | h
  · subst h; simp [DB.err]
  · by_cases hr : e = GoErr.recordNotFound
    · subst hr; simp [DB.err]
    · simp [DB.err, hr, h]

theorem errOverwrite_amended_witness :
    (DB.err { db0 with Error := some (GoErr.mk ("first")) } (GoErr.mk ("second"))).2.Error
      = some (GoErr.mk ("second")) :=
  (errOverwrite_amended { db0 with Error := some (GoErr.mk ("first")) } (GoErr.mk ("second"))
    (Or.inr (by decide))).1

/-- C5 counterexample: a non-nil error matching the benign scan-mismatch
pattern is not stored — but the latching operation returns nil, not the
original error value. -/
theorem errSuppressedReturn_counterexample :
    (DB.err db0 (GoErr.mk ("sql: Scan error on column index 0: bad"))).1 = none
    ∧ (DB.err db0 (GoErr.mk ("sql: Scan error on column index 0: bad"))).2 = db0
    ∧ (none : Option GoErr) ≠ some (GoErr.mk ("sql: Scan error on column index 0: bad")) := by
  decide

/-- C5 (amended): for a non-nil, non-sentinel error matching the benign
scan-mismatch pattern, `DB.err` neither stores the error nor returns it —
it returns nil, reporting success to its caller; the scope-level wrapper
`Scope.Err`, which discards `DB.err`'s return, still hands the original
error back to its own caller. -/
theorem errSuppressed_amended (d : DB) (sc : Scope) (e : GoErr)
    (h1 : e ≠ GoErr.recordNotFound) (h2 : matchesScanError e.message = true) :
    DB.err d e = (none, d) ∧ (Scope.Err sc (some e)).1 = some e := by
  constructor
  · simp [DB.err, h1, h2]
  · rfl

theorem errSuppressed_amended_witness :
    DB.err db0 (GoErr.mk ("sql: Scan error on column index 0: bad")) = (none, db0) :=
  (errSuppressed_amended db0 postScope (GoErr.mk ("sql: Scan error on column index 0: bad"))
    (by decide) (by decide)).1

/-- C10: on a valid, addressable field whose address implements
`sql.Scanner`, `Field.Set` routes the supplied value through `Scan` (the
stored datum becomes what `Scan` stores) and returns nil no matter what
error `Scan` itself returned — scan failures are silently discarded. -/
theorem fieldSet_scanner (f : Field) (a : SetArg)
    (h1 : f.Fval.valid = true) (h2 : f.Fval.canAddr = true) (h3 : f.Fval.isScanner = true) :
    (Field.Set f a).1 = none ∧ (Field.Set f a).2.Fval.data = a.scanStores := by
  simp [Field.Set, h1, h2, h3]

/-- A scanner-typed field instance used by the C10 witness. -/
def scannerField : Field :=
  { Name := ("Birthday"), DBName := ("birthday"),
    Fval := { valid := true, canAddr := true, isScanner := true, data := 0 },
    IsNormal := true, IsBlank := true, IsIgnored := false,
    IsPrimaryKey := false, DefaultValue := none, Relationship := none }

theorem fieldSet_scanner_witness :
    (Field.Set scannerField
      { raw := 3, convertible := false,
        scanResult := some (GoErr.mk ("scan failed")), scanStores := 3 }).1 = none :=
  (fieldSet_scanner scannerField
    { raw := 3, convertible := false,
      scanResult := some (GoErr.mk ("scan failed")), scanStores := 3 } rfl rfl rfl).1

/-- C1: on a scope whose connection supports transactions and whose
`Begin()` succeeds with transaction handle `n`, `Scope.Begin` routes the
handle's connection through the transaction and sets the instance-scoped
marker; then, for any latched-error state, `CommitOrRollback` commits when
the error is unset and rolls back when it is set, and in either case
restores the handle's connection reference to the parent session's (its
pre-transaction top-level value, untouched by `Begin`); on any scope whose
own marker is absent, `CommitOrRollback` does nothing. -/
theorem beginCommitOrRollback_ok (s : Scope) (n : Nat)
    (hc : s.db.db = SqlConn.conn true (some n)) :
    (Scope.Begin s).db.db = SqlConn.tx n
    ∧ lookupVal (Scope.Begin s).db.values (markerKey (Scope.Begin s)) = some true
    ∧ (∀ eo : Option GoErr,
        Scope.CommitOrRollback
            { Scope.Begin s with db := { (Scope.Begin s).db with Error := eo } } =
          ({ Scope.Begin s with
              db := { (Scope.Begin s).db with Error := eo, db := s.db.parentDb } },
           some (match eo with
                 | some _ => TxAction.rollback n
                 | none => TxAction.commit n)))
    ∧ (∀ s' : Scope, lookupVal s'.db.values (markerKey s') = none →
        Scope.CommitOrRollback s' = (s', none)) := by
  have hB : Scope.Begin s = { s with db := { s.db with db := SqlConn.tx n, values := setVal s.db.values (markerKey s) true } } := by
    simp [Scope.Begin, hc, DB.instantSet]
  refine ⟨?_, ?_, ?_, ?_⟩
  · rw [hB]
  · rw [hB]
    exact lookupVal_setVal s.db.values (markerKey s) true
  · intro eo
    rw [hB]
    simp only [Scope.CommitOrRollback, markerKey]
    rw [show ({ s with db := { s.db with db := SqlConn.tx n, values := setVal s.db.values (("gorm:started_transaction") ++ s.instanceId) true } } : Scope).instanceId = s.instanceId from rfl]
    rw [lookupVal_setVal]
  · intro s' h
    simp only [Scope.CommitOrRollback]
    rw [h]

/-- A scope ready to begin a transaction, for the C1 witness. -/
def txScope : Scope :=
  { Value := none, fields := none, primaryKeyField := none, db := db0,
    instanceId := ("i9"), Search := some emptySearch }

theorem beginCommitOrRollback_ok_witness :
    (Scope.Begin txScope).db.db = SqlConn.tx 7 :=
  (beginCommitOrRollback_ok txScope 7 rfl).1

/-- A scope with a non-empty condition accumulator on its handle and a
target exposing a fresh-handle hook, for the C4 counterexample. -/
def hookScope : Scope :=
  { Value := some (TargetV.scalar (GoTy.prim ("int"))
      { shape := HookShape.dbArg, result := none }),
    fields := none, primaryKeyField := none,
    db := { db0 with search := some { tableName := (""), conds := [("age > 18")] } },
    instanceId := ("i2"),
    Search := some { tableName := (""), conds := [("age > 18")] } }

/-- C4 counterexample: dispatching a fresh-Handle hook changes the scope's
own handle's query-condition accumulator — `deriveFresh` (`DB.new`) sets it
to nil before cloning, so it is not left unchanged. -/
theorem callMethodFreshHandle_counterexample :
    ¬ ((Scope.CallMethod ("BeforeSave") hookScope).1.db.search = hookScope.db.search) := by
  decide

/-- C4 (amended): a fresh-Handle hook form receives the handle derived via
`deriveFresh()` (`DB.new`) from the scope's handle — a clone retaining
connection, settings and error with a brand-new empty condition
accumulator — but `deriveFresh` first sets the scope's own handle's
accumulator to nil, so the dispatch leaves the caller's accumulator
cleared, not unchanged. -/
theorem callMethodFreshHandle_amended (name : String) (s : Scope) (ty : GoTy) (h : HookM)
    (hv : s.Value = some (TargetV.scalar ty h)) (hd : h.shape = HookShape.dbArg) :
    Scope.CallMethod name s =
      ({ s with db := { s.db with search := none } },
       [CallEvent.ranWithDB HookShape.dbArg ({ s.db with search := some emptySearch })]) := by
  simp [Scope.CallMethod, hv, callOne, hd, DB.new, DB.clone]

theorem callMethodFreshHandle_amended_witness :
    Scope.CallMethod ("BeforeSave") hookScope =
      ({ hookScope with db := { hookScope.db with search := none } },
       [CallEvent.ranWithDB HookShape.dbArg ({ hookScope.db with search := some emptySearch })]) :=
  callMethodFreshHandle_amended ("BeforeSave") hookScope (GoTy.prim ("int"))
    { shape := HookShape.dbArg, result := none } rfl rfl

/-- A scope over a record type named `Bus`, for the C8 counterexample. -/
def busScope : Scope :=
  { Value := some (TargetV.scalar (GoTy.structT ("Bus") none []) noHook),
    fields := none, primaryKeyField := none, db := db0,
    instanceId := ("i3"), Search := none }

/-- C8 counterexample: on the type name `Bus` (snake-cased `bus`, matching
none of the six specific suffix rules), the source's final rule
`([^s])s?$→${1}s` leaves the name unchanged (`bus`), whereas the claim's
"else append `s`" would give `buss`. -/
theorem tableNamePluralize_counterexample :
    (Scope.TableName busScope).1 = ("bus")
    ∧ specPluralize (toSnake ("Bus")) = ("buss")
    ∧ (("bus") : String) ≠ ("buss") := by
  decide

/-- The explicit table-name override visible on a scope's `Search`. -/
def searchOverride : Option search → String
  | none => ("")
  | some se => se.tableName

/-- C8 (amended): with no override, no `TableName` hook and singular naming
off, `tableName()` is the snake-cased type name pluralized by the first
matching rule of the ordered list `ch$→ches`, `ss$→sses`, `sh$→shes`,
`day$→days`, `y$→ies`, `x$→xes`, `([^s])s?$→${1}s` (append `s` unless the
name already ends in `s`, which is left unchanged); in particular Bench,
Class, Dish, Monday, Category, Box and User pluralize to benches, classes,
dishes, mondays, categories, boxes and users. -/
theorem tableNamePluralize_amended (s : Scope) (name : String)
    (fs : List GoStructField) (hk : HookM)
    (hv : s.Value = some (TargetV.scalar (GoTy.structT name none fs) hk))
    (ho : searchOverride s.Search = (""))
    (hs : s.db.singularTable = false) :
    (Scope.TableName s).1 = pluralizeTableName (toSnake name)
    ∧ pluralizeTableName (toSnake ("Bench")) = ("benches")
    ∧ pluralizeTableName (toSnake ("Class")) = ("classes")
    ∧ pluralizeTableName (toSnake ("Dish")) = ("dishes")
    ∧ pluralizeTableName (toSnake ("Monday")) = ("mondays")
    ∧ pluralizeTableName (toSnake ("Category")) = ("categories")
    ∧ pluralizeTableName (toSnake ("Box")) = ("boxes")
    ∧ pluralizeTableName (toSnake ("User")) = ("users") := by
  refine ⟨?_, by decide, by decide, by decide, by decide, by decide, by decide, by decide⟩
  have hbody : (tableNameBody s).1 = pluralizeTableName (toSnake name) := by
    simp [tableNameBody, hv, TargetV.ty, GoTy.tableNameMethod, GoTy.name, hs]
  cases hse : s.Search with
  | none => simpa [Scope.TableName, hse] using hbody
  | some se =>
      have : se.tableName = ("") := by simpa [searchOverride, hse] using ho
      simp [Scope.TableName, hse, this]
      exact hbody

theorem tableNamePluralize_amended_witness :
    (Scope.TableName { busScope with
        Value := some (TargetV.scalar (GoTy.structT ("Bench") none []) noHook) }).1
      = ("benches") :=
  ((tableNamePluralize_amended
      { busScope with Value := some (TargetV.scalar (GoTy.structT ("Bench") none []) noHook) }
      ("Bench") [] noHook rfl rfl rfl).1).trans (by decide)

theorem matchesScanError_unsupported (name : String) :
    matchesScanError (("unsupported function ") ++ name) = false := by
  obtain ⟨l⟩ := name
  rfl

/-- C9: a target method under the dispatched hook name whose signature
matches none of the six recognized shapes makes `CallMethod` latch the
`unsupported function` error onto the scope's handle (the dispatch records
the invocation and returns normally — no fatal halt, no silent skip). -/
theorem callMethodUnsupported_latches (name : String) (s : Scope) (ty : GoTy)
    (r : Option GoErr)
    (hv : s.Value = some (TargetV.scalar ty { shape := HookShape.unsupported, result := r })) :
    (Scope.CallMethod name s).1.db.Error = some (GoErr.mk (("unsupported function ") ++ name))
    ∧ (Scope.CallMethod name s).2 = [CallEvent.ran HookShape.unsupported] := by
  constructor
  · simp [Scope.CallMethod, hv, callOne, Scope.Err, DB.err, GoErr.message,
      matchesScanError_unsupported]
  · simp [Scope.CallMethod, hv, callOne]

theorem callMethodUnsupported_latches_witness :
    (Scope.CallMethod ("BeforeSave")
        { hookScope with Value := some (TargetV.scalar (GoTy.prim ("int"))
            { shape := HookShape.unsupported, result := none }) }).1.db.Error
      = some (GoErr.mk (("unsupported function BeforeSave"))) :=
  (callMethodUnsupported_latches ("BeforeSave")
    { hookScope with Value := some (TargetV.scalar (GoTy.prim ("int"))
        { shape := HookShape.unsupported, result := none }) }
    (GoTy.prim ("int")) none rfl).1

/-- C6: field discovery with relation inference fills the cache on first
use and the second call returns exactly the cached mapping, with the scope
unchanged; a scope whose cache is already populated is served from it
without recomputation; discovery with relation inference disabled is the
pure recomputation — it returns the scope unchanged (never writes the
cache) and its mapping does not depend on the cache's contents (never
reads it). -/
theorem fieldsCache_stable (s : Scope) (m : FieldsMap) :
    (s.fields = none → ∀ (m' : FieldsMap) (s' : Scope),
        Scope.Fields s true = .ok (m', s') →
        s' = { s with fields := some m' } ∧ Scope.Fields s' true = .ok (m', s'))
    ∧ (s.fields = some m → Scope.Fields s true = .ok (m, s))
    ∧ (Scope.Fields s false =
        (fieldsCompute (scopeFuel s.indirectTy) s.indirectTy false s.db.tagIdentifier).map
          (fun mm => (mm, s)))
    ∧ (∀ c : Option FieldsMap,
        (Scope.Fields { s with fields := c } false).map (fun p => p.1) =
          (Scope.Fields s false).map (fun p => p.1)) := by
  refine ⟨?_, ?_, ?_, ?_⟩
  · intro h m' s' heq
    rcases hc : fieldsCompute (scopeFuel s.indirectTy) s.indirectTy true s.db.tagIdentifier with e | mm
    · simp [Scope.Fields, h, hc] at heq
    · simp [Scope.Fields, h, hc] at heq
      obtain ⟨hm, hs⟩ := heq
      subst hm
      constructor
      · exact hs.symm
      · rw [← hs]
        simp [Scope.Fields]
  · intro h
    simp [Scope.Fields, h]
  · rcases hc : fieldsCompute (scopeFuel s.indirectTy) s.indirectTy false s.db.tagIdentifier with e | mm
    · simp [Scope.Fields, hc, Except.map]
    · simp [Scope.Fields, hc, Except.map]
  · intro c
    have hEq : ({ s with fields := c } : Scope).indirectTy = s.indirectTy := rfl
    rcases hc : fieldsCompute (scopeFuel s.indirectTy) s.indirectTy false s.db.tagIdentifier with e | mm
    · simp [Scope.Fields, hEq, hc, Except.map]
    · simp [Scope.Fields, hEq, hc, Except.map]

/-- A scope whose fields cache is pre-populated, for the C6 witness. -/
def cachedScope : Scope := { postScope with fields := some [] }

theorem fieldsCache_stable_witness :
    Scope.Fields cachedScope true = .ok ([], cachedScope) :=
  (fieldsCache_stable cachedScope []).2.1 rfl

/-- The per-element error-latching step performed by the collection loop of
`CallMethod` on an error-returning hook result. -/
def errStep (d : DB) (r : Option GoErr) : DB :=
  match r with
  | none => d
  | some e => (DB.err d e).2

theorem scopeErr_state (s : Scope) (r : Option GoErr) :
    (Scope.Err s r).2 = { s with db := errStep s.db r } := by
  cases r <;> rfl

theorem callMethod_coll_fold (name : String) (rs : List (Option GoErr)) :
    ∀ (s : Scope) (evs : List CallEvent),
      List.foldl (fun acc h => ((callOne name acc.1 h).1, acc.2 ++ (callOne name acc.1 h).2))
          (s, evs) (rs.map (fun r => ({ shape := HookShape.noArgE, result := r } : HookM)))
        = ({ s with db := rs.foldl errStep s.db },
           evs ++ rs.map (fun _ => CallEvent.ran HookShape.noArgE)) := by
  induction rs with
  | nil => intro s evs; simp
  | cons r rs ih =>
      intro s evs
      simp only [List.map_cons, List.foldl_cons]
      have h1 : callOne name s { shape := HookShape.noArgE, result := r } =
          ((Scope.Err s r).2, [CallEvent.ran HookShape.noArgE]) := rfl
      rw [h1, scopeErr_state, ih]
      simp [List.foldl_cons]

theorem callOne_eventCount (name : String) (s : Scope) (h : HookM)
    (hne : h.shape ≠ HookShape.absent) : (callOne name s h).2.length = 1 := by
  cases hsh : h.shape <;> simp [callOne, hsh] <;> exact absurd hsh hne

theorem callMethod_coll_eventCount (name : String) (hs : List HookM) :
    ∀ (s : Scope) (evs : List CallEvent), (∀ h ∈ hs, h.shape ≠ HookShape.absent) →
      (List.foldl (fun acc h => ((callOne name acc.1 h).1, acc.2 ++ (callOne name acc.1 h).2))
          (s, evs) hs).2.length = evs.length + hs.length := by
  induction hs with
  | nil => intro s evs _; simp
  | cons h hs ih =>
      intro s evs hall
      simp only [List.foldl_cons]
      rw [ih (callOne name s h).1 (evs ++ (callOne name s h).2)
            (fun x hx => hall x (List.mem_cons_of_mem h hx))]
      rw [List.length_append, callOne_eventCount name s h (hall h (List.mem_cons_self h hs))]
      simp only [List.length_cons]
      omega

/-- C7: on a collection target, `CallMethod` invokes the hook once per
element in sequence order — the invocation record has exactly one entry per
element even when earlier elements returned failures (no short-circuit) —
and each element's returned failure is fed to the handle's latching
operation in order (the final handle is the left fold of the latching step
over the per-element results); a nil target is a no-op. -/
theorem callMethodCollection (name : String) (ty : GoTy) :
    (∀ (rs : List (Option GoErr)) (s : Scope),
        s.Value = some (TargetV.coll ty
          (rs.map (fun r => ({ shape := HookShape.noArgE, result := r } : HookM)))) →
        Scope.CallMethod name s =
          ({ s with db := rs.foldl errStep s.db },
           rs.map (fun _ => CallEvent.ran HookShape.noArgE)))
    ∧ (∀ (hs : List HookM) (s : Scope),
        s.Value = some (TargetV.coll ty hs) →
        (∀ h ∈ hs, h.shape ≠ HookShape.absent) →
        (Scope.CallMethod name s).2.length = hs.length)
    ∧ (∀ s : Scope, s.Value = none → Scope.CallMethod name s = (s, [])) := by
  refine ⟨?_, ?_, ?_⟩
  · intro rs s hv
    simp only [Scope.CallMethod, hv]
    rw [callMethod_coll_fold]
    simp
    exact hv
  · intro hs s hv hall
    simp only [Scope.CallMethod, hv]
    rw [callMethod_coll_eventCount name hs s [] hall]
    simp
  · intro s hv
    simp [Scope.CallMethod, hv]

/-- A three-element collection scope whose first and third hooks fail, for
the C7 witness. -/
def collScope : Scope :=
  { Value := some (TargetV.coll (GoTy.prim ("int"))
      ([some (GoErr.mk ("e1")), none, some (GoErr.mk ("e2"))].map
        (fun r => ({ shape := HookShape.noArgE, result := r } : HookM)))),
    fields := none, primaryKeyField := none, db := db0,
    instanceId := ("i4"), Search := some emptySearch }

theorem callMethodCollection_witness :
    Scope.CallMethod ("AfterCreate") collScope =
      ({ collScope with
          db := [some (GoErr.mk ("e1")), none, some (GoErr.mk ("e2"))].foldl errStep collScope.db },
       [CallEvent.ran HookShape.noArgE, CallEvent.ran HookShape.noArgE,
        CallEvent.ran HookShape.noArgE]) :=
  (callMethodCollection ("AfterCreate") (GoTy.prim ("int"))).1
    [some (GoErr.mk ("e1")), none, some (GoErr.mk ("e2"))] collScope rfl

/-- The association descriptor the engine derives for `Post.Author` when
discovery runs with relation inference. -/
def relPostAuthor : relationship :=
  { JoinTable := (""), ForeignKey := ("PostId"), ForeignType := (""),
    AssociationForeignKey := (""), Kind := ("has_one") }

/-- C3 counterexample: on a `Post` scope whose tagged primary-key field is
struct-valued, the source's `PrimaryKeyField` runs discovery *with*
relation inference — the returned primary-key field carries a `has_one`
association descriptor and the scope's fields cache is populated — whereas
the claimed relation-free discovery would return the field with no
descriptor and leave the cache untouched. -/
theorem primaryKeyField_counterexample :
    pkRelationOf (Scope.PrimaryKeyField postScope) = some (some relPostAuthor)
    ∧ pkRelationOf (specPrimaryKeyField postScope) = some none
    ∧ pkCacheWritten (Scope.PrimaryKeyField postScope) = true
    ∧ pkCacheWritten (specPrimaryKeyField postScope) = false
    ∧ some relPostAuthor ≠ (none : Option relationship) := by
  decide

/-- C3 (amended): `primaryKeyField()` returns the cached field when
present; on first use it runs the default relation-inferring field
discovery — on the scope itself for non-collection targets (thereby
populating the scope's fields cache), and on a fresh scope around a
zero-valued element for collection targets (that clone's cache being
discarded) — selects the first field flagged primary key in discovery
order, caches it on the scope, and returns none when no field is flagged
(`findPrimaryKey` of the discovered mapping). -/
theorem primaryKeyField_amended :
    (∀ (s : Scope) (f : Field), s.primaryKeyField = some f →
        Scope.PrimaryKeyField s = .ok (some f, s))
    ∧ (∀ (s : Scope) (ty : GoTy) (hk : HookM),
        s.primaryKeyField = none → s.Value = some (TargetV.scalar ty hk) →
        (∀ e, ty ≠ GoTy.sliceT e) →
        Scope.PrimaryKeyField s =
          (Scope.Fields s true).map
            (fun p => (findPrimaryKey p.1, { p.2 with primaryKeyField := findPrimaryKey p.1 })))
    ∧ (∀ (s : Scope) (elem : GoTy) (hks : List HookM),
        s.primaryKeyField = none → s.Value = some (TargetV.coll elem hks) →
        Scope.PrimaryKeyField s =
          ((s.New (some (TargetV.scalar elem noHook))).Fields true).map
            (fun p => (findPrimaryKey p.1, { s with primaryKeyField := findPrimaryKey p.1 }))) := by
  refine ⟨?_, ?_, ?_⟩
  · intro s f h
    simp [Scope.PrimaryKeyField, h]
  · intro s ty hk h hv hns
    have hty : s.indirectTy = some ty := by simp [Scope.indirectTy, hv, TargetV.ty]
    rcases hf : Scope.Fields s true with e | p
    · cases ty <;>
        simp [Scope.PrimaryKeyField, h, hty, hf, Except.map] <;>
        exact absurd rfl (hns _)
    · cases ty <;>
        simp [Scope.PrimaryKeyField, h, hty, hf, Except.map] <;>
        exact absurd rfl (hns _)
  · intro s elem hks h hv
    have hty : s.indirectTy = some (GoTy.sliceT elem) := by
      simp [Scope.indirectTy, hv, TargetV.ty]
    rcases hf : (s.New (some (TargetV.scalar elem noHook))).Fields true with e | p
    · simp [Scope.PrimaryKeyField, h, hty, hf, Except.map]
    · simp [Scope.PrimaryKeyField, h, hty, hf, Except.map]

/-- A scope with a pre-cached primary-key field, for the C3 witness. -/
def cachedPkScope : Scope := { postScope with primaryKeyField := some scannerField }

theorem primaryKeyField_amended_witness :
    Scope.PrimaryKeyField cachedPkScope = .ok (some scannerField, cachedPkScope) :=
  primaryKeyField_amended.1 cachedPkScope scannerField rfl

end GormSpec
